import Mathlib

/-!
Verification of the Even G2 Google Keep display engine (`src/g2-display.ts`,
`src/keep-api.ts`), as a shallow embedding.

Strings are modelled as `List Char`: the TypeScript code iterates strings with
`for (const char of text)`, which walks Unicode code points, and measures them
with `TextEncoder().encode(s).byteLength`, the UTF-8 byte count — both match
`List Char` with `Char.utf8Size`.  The module-level mutable `state` object is
modelled as an explicit `G2State` record threaded through step functions; the
`setTimeout`-based scroll cooldown flag is modelled by a `cooldownUntil`
timestamp (the flag is set at an accepted scroll and cleared 300 ms later, so
it is active exactly while `now < cooldownUntil`, assuming the timer fires on
schedule).  Asynchronous bridge calls are modelled by passing their outcome
(`ok : Bool`) into each step: `createStartUpPageContainer` resolving with the
success enum, `rebuildPageContainer` resolving versus rejecting.
-/

namespace EvenG2

-- ---------------------------------------------------------------------------
-- g2-display.ts: constants and byte utilities
-- ---------------------------------------------------------------------------

/-- `MAX_BYTES_PER_PAGE` from g2-display.ts. -/
def MAX_BYTES_PER_PAGE : Nat := 900

/-- `SCROLL_COOLDOWN_MS` from g2-display.ts. -/
def SCROLL_COOLDOWN_MS : Nat := 300

/-- `byteLength` from g2-display.ts: UTF-8 encoded byte count of a string. -/
def byteLength (s : List Char) : Nat := (s.map Char.utf8Size).sum

/-- Recursion of `splitIntoPages` over the input: the `for (const char of text)`
loop, carrying the accumulator `current` and its byte count `currentBytes`,
followed by the final `if (current.length > 0) pages.push(current)`. -/
def splitIntoPagesAux (maxBytes : Nat) : List Char → List Char → Nat → List (List Char)
  | [], current, _ => if current.length > 0 then [current] else []
  | c :: rest, current, currentBytes =>
    let charBytes := byteLength [c]
    if currentBytes + charBytes > maxBytes then
      current :: splitIntoPagesAux maxBytes rest [c] charBytes
    else
      splitIntoPagesAux maxBytes rest (current ++ [c]) (currentBytes + charBytes)

/-- `splitIntoPages` from g2-display.ts, including the
`pages.length > 0 ? pages : ['']` fallback. -/
def splitIntoPages (text : List Char) (maxBytes : Nat := MAX_BYTES_PER_PAGE) :
    List (List Char) :=
  let pages := splitIntoPagesAux maxBytes text [] 0
  if pages.length > 0 then pages else [[]]

-- ---------------------------------------------------------------------------
-- keep-api.ts: data model and note utilities
-- ---------------------------------------------------------------------------

/-- `TextContent` from keep-api.ts. -/
structure TextContent where
  text : List Char
deriving DecidableEq

/-- `ListItem` from keep-api.ts.  `text` is optional here because the code
accesses it defensively (`item.text?.text ?? ''`); `childListItems` is omitted
because no code path under verification reads it. -/
structure ListItem where
  text : Option TextContent
  checked : Bool
deriving DecidableEq

/-- `ListContent` from keep-api.ts. -/
structure ListContent where
  listItems : List ListItem
deriving DecidableEq

/-- `NoteBody` from keep-api.ts. -/
structure NoteBody where
  text : Option TextContent
  list : Option ListContent
deriving DecidableEq

/-- `Note` from keep-api.ts, restricted to the fields the display engine reads
(`name`, `createTime`, `updateTime`, `trashTime`, `trashed` are never consulted
by g2-display.ts). -/
structure Note where
  title : Option (List Char)
  body : Option NoteBody
deriving DecidableEq

/-- JavaScript `String.prototype.trim`. -/
def trim (s : List Char) : List Char :=
  ((s.dropWhile Char.isWhitespace).reverse.dropWhile Char.isWhitespace).reverse

/-- The `'（無題）'` placeholder of `getNoteTitle`. -/
def untitled : List Char := ['（', '無', '題', '）']

/-- `getNoteTitle` from keep-api.ts.  JavaScript truthiness of a string is
emptiness, so each guard tests the corresponding list for `≠ []`. -/
def getNoteTitle (note : Note) : List Char :=
  let t := (note.title.map trim).getD []
  if t ≠ [] then t
  else
    let bodyText := ((note.body.bind NoteBody.text).map TextContent.text).getD []
    if bodyText ≠ [] then
      let firstLine := trim (bodyText.takeWhile (fun c => c ≠ '\n'))
      let tt := firstLine.take 50
      if tt ≠ [] then tt else untitled
    else
      let firstItem := (note.body.bind NoteBody.list).bind (fun lc => lc.listItems.head?)
      let itemText := ((firstItem.bind ListItem.text).map TextContent.text).getD []
      if itemText ≠ [] then
        let tt := itemText.take 50
        if tt ≠ [] then tt else untitled
      else untitled

/-- `getListItems` from keep-api.ts. -/
def getListItems (note : Note) : List (List Char) :=
  match note.body.bind NoteBody.list with
  | none => []
  | some lc =>
    lc.listItems.map (fun item =>
      let check := if item.checked then ['[', 'x', ']', ' '] else ['[', ' ', ']', ' ']
      check ++ ((item.text.map TextContent.text).getD []))

/-- `getTextContent` from keep-api.ts. -/
def getTextContent (note : Note) : List Char :=
  ((note.body.bind NoteBody.text).map TextContent.text).getD []

-- ---------------------------------------------------------------------------
-- g2-display.ts: pure content of renderNoteDetail / renderNoteAsList
-- ---------------------------------------------------------------------------

/-- The separator `'─'.repeat(20)` of `renderNoteDetail`. -/
def sepLine : List Char := List.replicate 20 '─'

/-- The `body` variable of `renderNoteDetail`: list items joined by newlines if
the note has a list body, else the text content, else empty. -/
def detailBody (note : Note) : List Char :=
  match note.body with
  | none => []
  | some b =>
    if b.list.isSome then List.intercalate ['\n'] (getListItems note)
    else if b.text.isSome then getTextContent note
    else []

/-- The `fullContent` template literal of `renderNoteDetail`. -/
def fullContent (note : Note) : List Char :=
  getNoteTitle note ++ '\n' :: sepLine ++ '\n' :: detailBody note

/-- The page list `renderNoteDetail` computes (with the default 900-byte
budget). -/
def detailPages (note : Note) : List (List Char) :=
  splitIntoPages (fullContent note)

/-- `Math.max(0, Math.min(pageIndex, pages.length - 1))` of `renderNoteDetail`.
The argument is an integer because callers pass `pageIndex - 1`. -/
def clampedIndex (pi : Int) (len : Nat) : Nat :=
  (max 0 (min pi ((len : Int) - 1))).toNat

/-- The page label template literal of `renderNoteDetail`. -/
def pageLabel (i len : Nat) : List Char :=
  '[' :: Nat.toDigits 10 (i + 1) ++ '/' :: Nat.toDigits 10 len ++ [']']

/-- The `content` string `renderNoteDetail` hands to the text container at a
requested page index: the clamped page, with the page label appended after a
newline exactly when there is more than one page. -/
def pageContent (note : Note) (pi : Int) : List Char :=
  let pages := detailPages note
  let i := clampedIndex pi pages.length
  let content := pages.getD i []
  if 1 < pages.length then content ++ '\n' :: pageLabel i pages.length
  else content

/-- The list header `── title ──` of `renderNoteAsList`. -/
def listHeader (note : Note) : List Char :=
  '─' :: '─' :: ' ' :: (getNoteTitle note ++ [' ', '─', '─'])

/-- The `displayItems` array of `renderNoteAsList`: header plus items, capped
at 20 entries. -/
def displayItems (note : Note) : List (List Char) :=
  (listHeader note :: getListItems note).take 20

-- ---------------------------------------------------------------------------
-- g2-display.ts: session state and render dispatch
-- ---------------------------------------------------------------------------

/-- What a single render puts on the device: either the detail text container
(with the clamped page index and its content) or the native list container. -/
inductive RenderKind where
  | detail (index : Nat) (content : List Char)
  | list (items : List (List Char))
deriving DecidableEq

/-- An observable bridge call: `createStartUpPageContainer` (with its resolved
success), `rebuildPageContainer`, or `shutDownPageContainer`. -/
inductive Action where
  | create (kind : RenderKind) (success : Bool)
  | rebuild (kind : RenderKind)
  | shutdown
deriving DecidableEq

/-- The render kind an action carries, if it is a render. -/
def Action.kind : Action → Option RenderKind
  | .create k _ => some k
  | .rebuild k => some k
  | .shutdown => none

/-- The module-level `state` object of g2-display.ts.  `bridgeConnected`
models `state.bridge !== null`; `cooldownUntil` models the
`scrollCooldown`/`setTimeout` pair (active iff `now < cooldownUntil`). -/
structure G2State where
  bridgeConnected : Bool
  initialized : Bool
  currentNote : Option Note
  pages : List (List Char)
  pageIndex : Nat
  cooldownUntil : Nat
deriving DecidableEq

/-- The initial value of `state`. -/
def initialState : G2State :=
  { bridgeConnected := false, initialized := false, currentNote := none,
    pages := [], pageIndex := 0, cooldownUntil := 0 }

/-- `renderPage` from g2-display.ts: create when not yet initialized (setting
`initialized` to the create result), rebuild otherwise.  `ok` is the resolved
outcome of the bridge call. -/
def renderPageStep (st : G2State) (kind : RenderKind) (ok : Bool) : G2State × Action :=
  if st.initialized then (st, .rebuild kind)
  else ({ st with initialized := ok }, .create kind ok)

/-- `renderNoteDetail` from g2-display.ts: recompute the page set, store it and
the clamped index in the state, then dispatch the text container. -/
def renderNoteDetailStep (st : G2State) (note : Note) (pi : Int) (ok : Bool) :
    G2State × Action :=
  let pages := detailPages note
  let i := clampedIndex pi pages.length
  let st1 := { st with pages := pages, pageIndex := i }
  renderPageStep st1 (.detail i (pageContent note pi)) ok

/-- `renderNoteAsList` from g2-display.ts: fall back to the detail view at the
current page index when the note has no list body, else dispatch the list
container (session pages and page index untouched). -/
def renderNoteAsListStep (st : G2State) (note : Note) (ok : Bool) : G2State × Action :=
  if (note.body.bind NoteBody.list).isSome then
    renderPageStep st (.list (displayItems note)) ok
  else
    renderNoteDetailStep st note (st.pageIndex : Int) ok

/-- The event shapes the `onEvenHubEvent` callback distinguishes: text-event
scroll up / scroll down, the text click (`eventType === 0` or `undefined`),
the system double-click, and anything else. -/
inductive G2Event where
  | textScrollUp
  | textScrollDown
  | textClick
  | sysDoubleClick
  | other
deriving DecidableEq

/-- `setCooldown` from g2-display.ts, at the moment `now` of the accepted
event: the flag stays set until `now + SCROLL_COOLDOWN_MS`. -/
def setCooldownAt (st : G2State) (now : Nat) : G2State :=
  { st with cooldownUntil := now + SCROLL_COOLDOWN_MS }

/-- The `onEvenHubEvent` callback of `setupEventListeners`.  The callback only
exists once a bridge is connected; its first statement drops any event while
the scroll cooldown is active. -/
def handleEvent (st : G2State) (now : Nat) (ev : G2Event) (ok : Bool) :
    G2State × List Action :=
  if st.bridgeConnected then
    if now < st.cooldownUntil then (st, [])
    else
      match ev with
      | .textScrollUp =>
        match st.currentNote with
        | none => (st, [])
        | some note =>
          let st1 := setCooldownAt st now
          if 1 < st1.pages.length ∧ 0 < st1.pageIndex then
            let r := renderNoteDetailStep st1 note ((st1.pageIndex : Int) - 1) ok
            (r.1, [r.2])
          else if (note.body.bind NoteBody.list).isSome then
            let r := renderNoteAsListStep st1 note ok
            (r.1, [r.2])
          else (st1, [])
      | .textScrollDown =>
        match st.currentNote with
        | none => (st, [])
        | some note =>
          let st1 := setCooldownAt st now
          if 1 < st1.pages.length ∧ st1.pageIndex < st1.pages.length - 1 then
            let r := renderNoteDetailStep st1 note ((st1.pageIndex : Int) + 1) ok
            (r.1, [r.2])
          else
            let r := renderNoteDetailStep st1 note 0 ok
            (r.1, [r.2])
      | .textClick => (st, [])
      | .sysDoubleClick => (st, [.shutdown])
      | .other => (st, [])
  else (st, [])

/-- `sendNoteToG2` from g2-display.ts: throws without a bridge; otherwise sets
`currentNote` and `pageIndex := 0`, then awaits `renderNoteDetail`.  The third
component is success of the whole call: with a connection it fails exactly when
the rebuild path rejects (`initialized` and the bridge call failed) — the state
mutations have already happened by then. -/
def sendNoteToG2Step (st : G2State) (note : Note) (ok : Bool) :
    G2State × List Action × Bool :=
  if st.bridgeConnected then
    let st1 := { st with currentNote := some note, pageIndex := 0 }
    let r := renderNoteDetailStep st1 note 0 ok
    (r.1, [r.2], !(st1.initialized && !ok))
  else (st, [], false)

/-- `initG2` from g2-display.ts: no-op when already connected; on a successful
connection stores the bridge and resets `initialized`; on failure rethrows with
no state change. -/
def initG2Step (st : G2State) (ok : Bool) : G2State :=
  if st.bridgeConnected then st
  else if ok then { st with bridgeConnected := true, initialized := false }
  else st

-- ---------------------------------------------------------------------------
-- Traces of bridge calls
-- ---------------------------------------------------------------------------

/-- One entry of the observable bridge-call trace; `.connect` marks a new
connection being established. -/
inductive TraceItem where
  | connect
  | create (success : Bool)
  | rebuild
  | shutdown
deriving DecidableEq

/-- Forget the rendered content of an action, keeping the bridge call. -/
def Action.toTrace : Action → TraceItem
  | .create _ s => .create s
  | .rebuild _ => .rebuild
  | .shutdown => .shutdown

/-- The external stimuli driving the engine: `initG2`, `sendNoteToG2`, and a
device event delivered to the callback.  Each carries the outcome of the
bridge call it may issue. -/
inductive Cmd where
  | connect (ok : Bool)
  | send (note : Note) (ok : Bool)
  | event (now : Nat) (ev : G2Event) (ok : Bool)

/-- Run one stimulus, returning the new state and the emitted trace. -/
def stepCmd (st : G2State) : Cmd → G2State × List TraceItem
  | .connect ok =>
    if st.bridgeConnected then (st, [])
    else if ok then
      ({ st with bridgeConnected := true, initialized := false }, [.connect])
    else (st, [])
  | .send note ok =>
    let r := sendNoteToG2Step st note ok
    (r.1, r.2.1.map Action.toTrace)
  | .event now ev ok =>
    let r := handleEvent st now ev ok
    (r.1, r.2.map Action.toTrace)

/-- Run a list of stimuli from a state, concatenating the traces. -/
def runCmds : G2State → List Cmd → G2State × List TraceItem
  | st, [] => (st, [])
  | st, c :: cs =>
    let r1 := stepCmd st c
    let r2 := runCmds r1.1 cs
    (r2.1, r1.2 ++ r2.2)

/-- Scan of the create-before-rebuild discipline: the flag records whether a
successful create has happened on the current connection; a rebuild is legal
only while the flag holds; a new connection resets the flag. -/
def goodAux : Bool → List TraceItem → Bool
  | _, [] => true
  | _, .connect :: rest => goodAux false rest
  | flag, .create s :: rest => goodAux (flag || s) rest
  | flag, .rebuild :: rest => flag && goodAux flag rest
  | flag, .shutdown :: rest => goodAux flag rest

/-- The flag value after scanning a trace segment. -/
def flagAfter : Bool → List TraceItem → Bool
  | flag, [] => flag
  | _, .connect :: rest => flagAfter false rest
  | flag, .create s :: rest => flagAfter (flag || s) rest
  | flag, .rebuild :: rest => flagAfter flag rest
  | flag, .shutdown :: rest => flagAfter flag rest

/-- A trace respects the device contract: no rebuild before a successful
create on the same connection. -/
def goodTrace (tr : List TraceItem) : Bool := goodAux false tr

-- ---------------------------------------------------------------------------
-- Pagination lemmas
-- ---------------------------------------------------------------------------

theorem byteLength_nil : byteLength [] = 0 := rfl

theorem byteLength_append (a b : List Char) :
    byteLength (a ++ b) = byteLength a + byteLength b := by
  simp [byteLength]

theorem byteLength_singleton (c : Char) : byteLength [c] = c.utf8Size := by
  simp [byteLength]

theorem splitIntoPagesAux_flatten (maxBytes : Nat) :
    ∀ (text current : List Char) (bytes : Nat),
      (splitIntoPagesAux maxBytes text current bytes).flatten = current ++ text := by
  intro text
  induction text with
  | nil =>
    intro current bytes
    unfold splitIntoPagesAux
    split
    · simp
    · simp_all
  | cons c rest ih =>
    intro current bytes
    unfold splitIntoPagesAux
    dsimp only
    split
    · simp [ih]
    · simp [ih]

theorem splitIntoPages_flatten (text : List Char) (maxBytes : Nat) :
    (splitIntoPages text maxBytes).flatten = text := by
  unfold splitIntoPages
  have h := splitIntoPagesAux_flatten maxBytes text [] 0
  dsimp only
  split
  · simpa using h
  · rename_i hlen
    have : splitIntoPagesAux maxBytes text [] 0 = [] := by
      cases hx : splitIntoPagesAux maxBytes text [] 0 with
      | nil => rfl
      | cons a l => rw [hx] at hlen; simp at hlen
    rw [this] at h
    simp at h
    simp [h]

theorem splitIntoPages_length_pos (text : List Char) (maxBytes : Nat) :
    0 < (splitIntoPages text maxBytes).length := by
  unfold splitIntoPages
  dsimp only
  split
  · omega
  · simp

theorem detailPages_length_pos (note : Note) : 0 < (detailPages note).length :=
  splitIntoPages_length_pos _ _

theorem splitIntoPages_nil (maxBytes : Nat) : splitIntoPages [] maxBytes = [[]] := rfl

theorem splitIntoPagesAux_byteLength_le (maxBytes : Nat) (hmax : 4 ≤ maxBytes) :
    ∀ (text current : List Char) (bytes : Nat),
      bytes = byteLength current → bytes ≤ maxBytes →
      ∀ p ∈ splitIntoPagesAux maxBytes text current bytes, byteLength p ≤ maxBytes := by
  intro text
  induction text with
  | nil =>
    intro current bytes hcur hle p hp
    unfold splitIntoPagesAux at hp
    split at hp
    · simp at hp; subst hp; omega
    · simp at hp
  | cons c rest ih =>
    intro current bytes hcur hle p hp
    unfold splitIntoPagesAux at hp
    dsimp only at hp
    split at hp
    · rcases List.mem_cons.1 hp with h | h
      · subst h; omega
      · exact ih [c] (byteLength [c]) rfl
          (by rw [byteLength_singleton]; exact le_trans (Char.utf8Size_le_four c) hmax)
          p h
    · rename_i hgt
      exact ih (current ++ [c]) (bytes + byteLength [c])
        (by rw [byteLength_append, hcur]) (by omega) p hp

-- ---------------------------------------------------------------------------
-- C1 and C2: paginator guarantees
-- ---------------------------------------------------------------------------

/-- C1 counterexample: for the one-character string `"é"` (UTF-8 size 2) with
budget `b = 1 > 0`, `splitIntoPages` emits the page `"é"` of byte length 2 > 1,
so not every page fits the budget. -/
theorem splitIntoPages_byteLength_counterexample :
    ¬ (∀ p ∈ splitIntoPages ['é'] 1, byteLength p ≤ 1) := by decide

/-- C1 (amended): for every string and every budget `b ≥ 4` (in particular the
production budget 900), every page emitted by `splitIntoPages` has UTF-8 byte
length at most `b`.  (For `0 < b < 4` a single character wider than the budget
is emitted as its own over-budget page.) -/
theorem splitIntoPages_byteLength_le (s : List Char) (b : Nat) (hb : 4 ≤ b) :
    ∀ p ∈ splitIntoPages s b, byteLength p ≤ b := by
  intro p hp
  unfold splitIntoPages at hp
  dsimp only at hp
  split at hp
  · exact splitIntoPagesAux_byteLength_le b hb s [] 0 rfl (by omega) p hp
  · simp at hp
    subst hp
    rw [byteLength_nil]
    omega

theorem splitIntoPages_byteLength_le_witness :
    4 ≤ 900 ∧ byteLength ((splitIntoPages ['あ', 'い'] 900).getD 0 []) ≤ 900 :=
  ⟨by norm_num,
   splitIntoPages_byteLength_le ['あ', 'い'] 900 (by norm_num) _ (by decide)⟩

/-- C2: for every string `s` and budget `b > 0`, `splitIntoPages s b` is a
non-empty sequence whose in-order concatenation is exactly `s`, and on the
empty string it returns the single-element sequence containing the empty
string. -/
theorem splitIntoPages_count_concat (s : List Char) (b : Nat) (hb : 0 < b) :
    1 ≤ (splitIntoPages s b).length ∧
    (splitIntoPages s b).flatten = s ∧
    splitIntoPages [] b = [[]] :=
  ⟨splitIntoPages_length_pos s b, splitIntoPages_flatten s b, splitIntoPages_nil b⟩

theorem splitIntoPages_count_concat_witness :
    0 < 1 ∧ (splitIntoPages ['h', 'i'] 1).flatten = ['h', 'i'] :=
  ⟨Nat.one_pos, (splitIntoPages_count_concat ['h', 'i'] 1 Nat.one_pos).2.1⟩

-- ---------------------------------------------------------------------------
-- C3: create before rebuild, per connection
-- ---------------------------------------------------------------------------

/-- Relation between the session flag and the trace scan: whenever the session
believes it is initialized, a successful create has been scanned on the current
connection. -/
def InvFlag (st : G2State) (flag : Bool) : Prop :=
  st.initialized = true → flag = true

theorem goodAux_append (f : Bool) (a b : List TraceItem) :
    goodAux f (a ++ b) = (goodAux f a && goodAux (flagAfter f a) b) := by
  induction a generalizing f with
  | nil => simp [goodAux, flagAfter]
  | cons x xs ih =>
    cases x <;> simp [goodAux, flagAfter, ih, Bool.and_assoc]

theorem renderPageStep_good (st : G2State) (kind : RenderKind) (ok : Bool)
    (flag : Bool) (h : InvFlag st flag) :
    goodAux flag [(renderPageStep st kind ok).2.toTrace] = true ∧
    InvFlag (renderPageStep st kind ok).1
      (flagAfter flag [(renderPageStep st kind ok).2.toTrace]) := by
  unfold renderPageStep
  split
  · rename_i hi
    refine ⟨by simp [goodAux, Action.toTrace, h hi], ?_⟩
    simpa [flagAfter, Action.toTrace] using h
  · refine ⟨by simp [goodAux, Action.toTrace], ?_⟩
    intro hinit
    simp only [flagAfter, Action.toTrace]
    simp at hinit
    simp [hinit]

theorem renderNoteDetailStep_good (st : G2State) (note : Note) (pi : Int) (ok : Bool)
    (flag : Bool) (h : InvFlag st flag) :
    goodAux flag [(renderNoteDetailStep st note pi ok).2.toTrace] = true ∧
    InvFlag (renderNoteDetailStep st note pi ok).1
      (flagAfter flag [(renderNoteDetailStep st note pi ok).2.toTrace]) := by
  unfold renderNoteDetailStep
  exact renderPageStep_good _ _ _ _ h

theorem renderNoteAsListStep_good (st : G2State) (note : Note) (ok : Bool)
    (flag : Bool) (h : InvFlag st flag) :
    goodAux flag [(renderNoteAsListStep st note ok).2.toTrace] = true ∧
    InvFlag (renderNoteAsListStep st note ok).1
      (flagAfter flag [(renderNoteAsListStep st note ok).2.toTrace]) := by
  unfold renderNoteAsListStep
  split
  · exact renderPageStep_good _ _ _ _ h
  · exact renderNoteDetailStep_good _ _ _ _ _ h

theorem handleEvent_good (st : G2State) (now : Nat) (ev : G2Event) (ok : Bool)
    (flag : Bool) (h : InvFlag st flag) :
    goodAux flag ((handleEvent st now ev ok).2.map Action.toTrace) = true ∧
    InvFlag (handleEvent st now ev ok).1
      (flagAfter flag ((handleEvent st now ev ok).2.map Action.toTrace)) := by
  have hcool : ∀ st' : G2State, InvFlag st' flag → InvFlag (setCooldownAt st' now) flag :=
    fun st' h' => h'
  unfold handleEvent
  split
  · split
    · exact ⟨rfl, h⟩
    · match ev with
      | .textScrollUp =>
        match hnote : st.currentNote with
        | none => exact ⟨rfl, h⟩
        | some note =>
          dsimp only
          split
          · exact renderNoteDetailStep_good _ _ _ _ _ (hcool st h)
          · split
            · exact renderNoteAsListStep_good _ _ _ _ (hcool st h)
            · exact ⟨rfl, hcool st h⟩
      | .textScrollDown =>
        match hnote : st.currentNote with
        | none => exact ⟨rfl, h⟩
        | some note =>
          dsimp only
          split
          · exact renderNoteDetailStep_good _ _ _ _ _ (hcool st h)
          · exact renderNoteDetailStep_good _ _ _ _ _ (hcool st h)
      | .textClick => exact ⟨rfl, h⟩
      | .sysDoubleClick => exact ⟨rfl, h⟩
      | .other => exact ⟨rfl, h⟩
  · exact ⟨rfl, h⟩

theorem sendNoteToG2Step_good (st : G2State) (note : Note) (ok : Bool)
    (flag : Bool) (h : InvFlag st flag) :
    goodAux flag ((sendNoteToG2Step st note ok).2.1.map Action.toTrace) = true ∧
    InvFlag (sendNoteToG2Step st note ok).1
      (flagAfter flag ((sendNoteToG2Step st note ok).2.1.map Action.toTrace)) := by
  unfold sendNoteToG2Step
  split
  · exact renderNoteDetailStep_good _ _ _ _ _ h
  · exact ⟨rfl, h⟩

theorem stepCmd_good (st : G2State) (c : Cmd) (flag : Bool) (h : InvFlag st flag) :
    goodAux flag (stepCmd st c).2 = true ∧
    InvFlag (stepCmd st c).1 (flagAfter flag (stepCmd st c).2) := by
  cases c with
  | connect ok =>
    simp only [stepCmd]
    split
    · exact ⟨rfl, h⟩
    · split
      · refine ⟨rfl, ?_⟩
        intro hinit
        simp at hinit
      · exact ⟨rfl, h⟩
  | send note ok =>
    exact sendNoteToG2Step_good st note ok flag h
  | event now ev ok =>
    exact handleEvent_good st now ev ok flag h

theorem runCmds_good (cmds : List Cmd) :
    ∀ (st : G2State) (flag : Bool), InvFlag st flag →
      goodAux flag (runCmds st cmds).2 = true := by
  induction cmds with
  | nil => intro st flag _; rfl
  | cons c cs ih =>
    intro st flag h
    have h1 := stepCmd_good st c flag h
    unfold runCmds
    dsimp only
    rw [goodAux_append, h1.1]
    simp only [Bool.true_and]
    exact ih _ _ h1.2

/-- C3: on any single bridge connection no rebuild call is ever dispatched
before a create call has succeeded on that connection: every trace of bridge
calls produced by any sequence of stimuli from the initial state passes the
create-before-rebuild scan (the scan's flag records a successful create since
the most recent connection, and every connection resets it). -/
theorem create_before_rebuild (cmds : List Cmd) :
    goodTrace (runCmds initialState cmds).2 = true :=
  runCmds_good cmds initialState false (by intro h; simp [initialState] at h)

-- ---------------------------------------------------------------------------
-- C4: page index stays in range
-- ---------------------------------------------------------------------------

/-- The invariant of the session: whenever the cached page list is non-empty,
the page index is a valid position in it (being a natural number, it is also
always `≥ 0`). -/
def IndexInv (st : G2State) : Prop :=
  st.pages ≠ [] → st.pageIndex < st.pages.length

theorem clampedIndex_lt (pi : Int) (len : Nat) (h : 0 < len) :
    clampedIndex pi len < len := by
  unfold clampedIndex
  have h1 : min pi ((len : Int) - 1) ≤ (len : Int) - 1 := min_le_right _ _
  have h2 : max 0 (min pi ((len : Int) - 1)) ≤ (len : Int) - 1 :=
    max_le (by omega) h1
  omega

theorem renderPageStep_fields (st : G2State) (kind : RenderKind) (ok : Bool) :
    (renderPageStep st kind ok).1.pages = st.pages ∧
    (renderPageStep st kind ok).1.pageIndex = st.pageIndex ∧
    (renderPageStep st kind ok).1.bridgeConnected = st.bridgeConnected ∧
    (renderPageStep st kind ok).1.currentNote = st.currentNote ∧
    (renderPageStep st kind ok).1.cooldownUntil = st.cooldownUntil := by
  unfold renderPageStep
  split <;> exact ⟨rfl, rfl, rfl, rfl, rfl⟩

theorem renderNoteDetailStep_state (st : G2State) (note : Note) (pi : Int) (ok : Bool) :
    (renderNoteDetailStep st note pi ok).1.pages = detailPages note ∧
    (renderNoteDetailStep st note pi ok).1.pageIndex =
      clampedIndex pi (detailPages note).length ∧
    (renderNoteDetailStep st note pi ok).1.cooldownUntil = st.cooldownUntil ∧
    (renderNoteDetailStep st note pi ok).1.bridgeConnected = st.bridgeConnected := by
  unfold renderNoteDetailStep
  have h := renderPageStep_fields
    { st with pages := detailPages note,
              pageIndex := clampedIndex pi (detailPages note).length }
    (.detail (clampedIndex pi (detailPages note).length) (pageContent note pi)) ok
  exact ⟨h.1, h.2.1, h.2.2.2.2, h.2.2.1⟩

theorem renderNoteDetailStep_inv (st : G2State) (note : Note) (pi : Int) (ok : Bool) :
    IndexInv (renderNoteDetailStep st note pi ok).1 := by
  intro _
  rw [(renderNoteDetailStep_state st note pi ok).1,
      (renderNoteDetailStep_state st note pi ok).2.1]
  exact clampedIndex_lt pi _ (detailPages_length_pos note)

theorem renderNoteAsListStep_inv (st : G2State) (note : Note) (ok : Bool)
    (h : IndexInv st) : IndexInv (renderNoteAsListStep st note ok).1 := by
  unfold renderNoteAsListStep
  split
  · intro hne
    have hf := renderPageStep_fields st (.list (displayItems note)) ok
    rw [hf.1, hf.2.1]
    rw [hf.1] at hne
    exact h hne
  · exact renderNoteDetailStep_inv _ _ _ _

theorem setCooldownAt_inv (st : G2State) (now : Nat) (h : IndexInv st) :
    IndexInv (setCooldownAt st now) := h

theorem handleEvent_inv (st : G2State) (now : Nat) (ev : G2Event) (ok : Bool)
    (h : IndexInv st) : IndexInv (handleEvent st now ev ok).1 := by
  unfold handleEvent
  split
  · split
    · exact h
    · match ev with
      | .textScrollUp =>
        match st.currentNote with
        | none => exact h
        | some note =>
          dsimp only
          split
          · exact renderNoteDetailStep_inv _ _ _ _
          · split
            · exact renderNoteAsListStep_inv _ _ _ (setCooldownAt_inv st now h)
            · exact setCooldownAt_inv st now h
      | .textScrollDown =>
        match st.currentNote with
        | none => exact h
        | some note =>
          dsimp only
          split
          · exact renderNoteDetailStep_inv _ _ _ _
          · exact renderNoteDetailStep_inv _ _ _ _
      | .textClick => exact h
      | .sysDoubleClick => exact h
      | .other => exact h
  · exact h

theorem sendNoteToG2Step_inv (st : G2State) (note : Note) (ok : Bool)
    (h : IndexInv st) : IndexInv (sendNoteToG2Step st note ok).1 := by
  unfold sendNoteToG2Step
  split
  · exact renderNoteDetailStep_inv _ _ _ _
  · exact h

theorem stepCmd_inv (st : G2State) (c : Cmd) (h : IndexInv st) :
    IndexInv (stepCmd st c).1 := by
  cases c with
  | connect ok =>
    simp only [stepCmd]
    split
    · exact h
    · split
      · exact fun hne => h hne
      · exact h
  | send note ok => exact sendNoteToG2Step_inv st note ok h
  | event now ev ok => exact handleEvent_inv st now ev ok h

theorem runCmds_inv (cmds : List Cmd) :
    ∀ st : G2State, IndexInv st → IndexInv (runCmds st cmds).1 := by
  induction cmds with
  | nil => exact fun st h => h
  | cons c cs ih =>
    intro st h
    unfold runCmds
    exact ih _ (stepCmd_inv st c h)

/-- C4: after any sequence of core operations from the initial state (connect,
note selection, event handling, each with its renders), whenever the cached
page list is non-empty the page index is in range: `pageIndex` is only ever
assigned 0 or a value clamped into `[0, pages.length)`. -/
theorem pageIndex_in_range (cmds : List Cmd) :
    (runCmds initialState cmds).1.pages ≠ [] →
    (runCmds initialState cmds).1.pageIndex <
      (runCmds initialState cmds).1.pages.length :=
  runCmds_inv cmds initialState (by intro h; simp [initialState] at h)

/-- A sample note: title `"N"`, text body `"hello"`. -/
def smallNote : Note :=
  { title := some ['N'],
    body := some { text := some { text := ['h', 'e', 'l', 'l', 'o'] }, list := none } }

/-- The command sequence used by witnesses: connect, then project `smallNote`. -/
def demoCmds : List Cmd := [.connect true, .send smallNote true]

theorem pageIndex_in_range_witness :
    (runCmds initialState demoCmds).1.pages ≠ [] ∧
    (runCmds initialState demoCmds).1.pageIndex <
      (runCmds initialState demoCmds).1.pages.length :=
  ⟨by decide, pageIndex_in_range demoCmds (by decide)⟩

-- ---------------------------------------------------------------------------
-- More helper lemmas on the step functions
-- ---------------------------------------------------------------------------

theorem clampedIndex_coe (i : Nat) (len : Nat) (h : i < len) :
    clampedIndex (i : Int) len = i := by
  unfold clampedIndex
  rw [min_eq_left (by omega), max_eq_right (by omega)]
  omega

theorem renderPageStep_kind (st : G2State) (kind : RenderKind) (ok : Bool) :
    (renderPageStep st kind ok).2.kind = some kind := by
  unfold renderPageStep
  split <;> rfl

theorem renderNoteDetailStep_kind (st : G2State) (note : Note) (pi : Int) (ok : Bool) :
    (renderNoteDetailStep st note pi ok).2.kind =
      some (.detail (clampedIndex pi (detailPages note).length) (pageContent note pi)) := by
  unfold renderNoteDetailStep
  exact renderPageStep_kind _ _ _

theorem renderNoteDetailStep_currentNote (st : G2State) (note : Note) (pi : Int)
    (ok : Bool) :
    (renderNoteDetailStep st note pi ok).1.currentNote = st.currentNote := by
  unfold renderNoteDetailStep
  exact (renderPageStep_fields _ _ _).2.2.2.1

theorem renderNoteAsListStep_fields (st : G2State) (note : Note) (ok : Bool) :
    (renderNoteAsListStep st note ok).1.cooldownUntil = st.cooldownUntil ∧
    (renderNoteAsListStep st note ok).1.bridgeConnected = st.bridgeConnected := by
  unfold renderNoteAsListStep
  split
  · have h := renderPageStep_fields st (.list (displayItems note)) ok
    exact ⟨h.2.2.2.2, h.2.2.1⟩
  · have h := renderNoteDetailStep_state st note (st.pageIndex : Int) ok
    exact ⟨h.2.2.1, h.2.2.2⟩

theorem filterMap_kind_single (a : Action) (k : RenderKind) (h : a.kind = some k) :
    List.filterMap Action.kind [a] = [k] := by
  simp [List.filterMap, h]

/-- The first statement of the event callback: while the scroll cooldown is
active, every event is dropped with no state change and no bridge call. -/
theorem handleEvent_drop (st : G2State) (now : Nat) (ev : G2Event) (ok : Bool)
    (h : now < st.cooldownUntil) : handleEvent st now ev ok = (st, []) := by
  unfold handleEvent
  split <;> rfl

/-- An accepted scroll event (connection up, cooldown expired, a note current)
leaves the cooldown set to 300 ms past its arrival, and the connection up. -/
theorem handleEvent_scroll_cooldown (st : G2State) (note : Note) (now : Nat)
    (ev : G2Event) (ok : Bool)
    (hb : st.bridgeConnected = true) (hn : st.currentNote = some note)
    (hc : st.cooldownUntil ≤ now)
    (hev : ev = G2Event.textScrollUp ∨ ev = G2Event.textScrollDown) :
    (handleEvent st now ev ok).1.cooldownUntil = now + SCROLL_COOLDOWN_MS ∧
    (handleEvent st now ev ok).1.bridgeConnected = true := by
  have hstep : ∀ pi okr,
      (renderNoteDetailStep (setCooldownAt st now) note pi okr).1.cooldownUntil =
          now + SCROLL_COOLDOWN_MS ∧
      (renderNoteDetailStep (setCooldownAt st now) note pi okr).1.bridgeConnected =
          true := by
    intro pi okr
    have h := renderNoteDetailStep_state (setCooldownAt st now) note pi okr
    exact ⟨h.2.2.1, by rw [h.2.2.2]; exact hb⟩
  rcases hev with h | h <;> subst h
  · unfold handleEvent
    rw [if_pos hb, if_neg (show ¬ now < st.cooldownUntil by omega)]
    simp only [hn]
    split
    · exact hstep _ _
    · split
      · have h := renderNoteAsListStep_fields (setCooldownAt st now) note ok
        exact ⟨h.1, by rw [h.2]; exact hb⟩
      · exact ⟨rfl, hb⟩
  · unfold handleEvent
    rw [if_pos hb, if_neg (show ¬ now < st.cooldownUntil by omega)]
    simp only [hn]
    split
    · exact hstep _ _
    · exact hstep _ _

-- ---------------------------------------------------------------------------
-- C5: detail page content
-- ---------------------------------------------------------------------------

/-- A 400-character note body of three-byte characters: its full detail
content is 1263 UTF-8 bytes and paginates to two pages. -/
def bigNote : Note :=
  { title := some ['T'],
    body := some { text := some { text := List.replicate 400 'あ' }, list := none } }

set_option maxRecDepth 100000 in
/-- C5 counterexample: `bigNote` paginates to more than one page, and the
rendered content of page 1 (a valid index) does not begin with the title line —
only page 0 carries the title and the separator, because the title and
separator are paginated together with the body rather than prepended to every
page. -/
theorem pageContent_counterexample :
    1 < (detailPages bigNote).length ∧
    (getNoteTitle bigNote ++ ['\n']).isPrefixOf (pageContent bigNote 1) = false := by
  constructor
  · decide
  · decide

/-- C5 (amended): the Detail-mode render of a note builds the single string
title line, separator line (20 horizontal-rule glyphs), then body, splits it
into pages, and the content rendered for a valid page index is that page's
slice of this full string, with the page-indicator line `[current/total]`
appended after a newline exactly when there is more than one page. -/
theorem pageContent_spec (note : Note) (i : Nat) (hi : i < (detailPages note).length) :
    (detailPages note).flatten =
      getNoteTitle note ++ '\n' :: sepLine ++ '\n' :: detailBody note ∧
    pageContent note (i : Int) =
      (detailPages note).getD i [] ++
        (if 1 < (detailPages note).length
         then '\n' :: pageLabel i (detailPages note).length else []) := by
  constructor
  · exact splitIntoPages_flatten (fullContent note) MAX_BYTES_PER_PAGE
  · unfold pageContent
    dsimp only
    rw [clampedIndex_coe i _ hi]
    split
    · rfl
    · simp

theorem pageContent_spec_witness :
    0 < (detailPages smallNote).length ∧
    pageContent smallNote ((0 : Nat) : Int) =
      (detailPages smallNote).getD 0 [] ++
        (if 1 < (detailPages smallNote).length
         then '\n' :: pageLabel 0 (detailPages smallNote).length else []) :=
  ⟨by decide, (pageContent_spec smallNote 0 (by decide)).2⟩

-- ---------------------------------------------------------------------------
-- C7: scroll-down on the last page wraps to page 0
-- ---------------------------------------------------------------------------

/-- C7: in Detail mode with the current page the last one (any page count,
including a single page), a scroll-down event re-renders page 0 and leaves the
page index at 0. -/
theorem scrollDown_lastPage_wraps (st : G2State) (note : Note) (now : Nat) (ok : Bool)
    (hb : st.bridgeConnected = true) (hn : st.currentNote = some note)
    (hi : st.pageIndex = st.pages.length - 1)
    (hc : st.cooldownUntil ≤ now) :
    (handleEvent st now .textScrollDown ok).1.pageIndex = 0 ∧
    (handleEvent st now .textScrollDown ok).2.filterMap Action.kind =
      [.detail 0 (pageContent note 0)] := by
  unfold handleEvent
  rw [if_pos hb, if_neg (show ¬ now < st.cooldownUntil by omega)]
  simp only [hn]
  rw [if_neg (by
    intro hcond
    have h2 : st.pageIndex < st.pages.length - 1 := hcond.2
    omega)]
  constructor
  · show (renderNoteDetailStep (setCooldownAt st now) note 0 ok).1.pageIndex = 0
    rw [(renderNoteDetailStep_state (setCooldownAt st now) note 0 ok).2.1]
    have h0 := clampedIndex_coe 0 (detailPages note).length (detailPages_length_pos note)
    simpa using h0
  · show List.filterMap Action.kind [(renderNoteDetailStep (setCooldownAt st now) note 0 ok).2] =
      [RenderKind.detail 0 (pageContent note 0)]
    refine filterMap_kind_single _ _ ?_
    rw [renderNoteDetailStep_kind]
    have h0 := clampedIndex_coe 0 (detailPages note).length (detailPages_length_pos note)
    simp only [Nat.cast_zero] at h0
    rw [h0]

/-- A reachable single-page state showing `smallNote`, initialized. -/
def demoState : G2State :=
  { bridgeConnected := true, initialized := true, currentNote := some smallNote,
    pages := detailPages smallNote, pageIndex := 0, cooldownUntil := 0 }

theorem scrollDown_lastPage_wraps_witness :
    demoState.pageIndex = demoState.pages.length - 1 ∧
    (handleEvent demoState 10 .textScrollDown true).1.pageIndex = 0 :=
  ⟨by decide,
   (scrollDown_lastPage_wraps demoState smallNote 10 true rfl rfl (by decide)
     (by decide)).1⟩

-- ---------------------------------------------------------------------------
-- C8 and C10: debounce window
-- ---------------------------------------------------------------------------

/-- C8: an accepted scroll transition at time `t` arms the 300 ms window, and
every event of any kind arriving at a time `t2 < t + 300` — measured from the
accepted transition — is dropped entirely: the state is unchanged and no
bridge call is made (nothing is queued).  In particular two scroll-down events
50 ms apart yield exactly one page transition. -/
theorem debounce_drops_within_window (st : G2State) (note : Note) (t : Nat)
    (ev1 : G2Event) (ok1 : Bool)
    (hb : st.bridgeConnected = true) (hn : st.currentNote = some note)
    (hc : st.cooldownUntil ≤ t)
    (hev : ev1 = G2Event.textScrollUp ∨ ev1 = G2Event.textScrollDown) :
    (handleEvent st t ev1 ok1).1.cooldownUntil = t + SCROLL_COOLDOWN_MS ∧
    ∀ (t2 : Nat) (ev2 : G2Event) (ok2 : Bool), t2 < t + SCROLL_COOLDOWN_MS →
      handleEvent (handleEvent st t ev1 ok1).1 t2 ev2 ok2 =
        ((handleEvent st t ev1 ok1).1, []) := by
  have h := handleEvent_scroll_cooldown st note t ev1 ok1 hb hn hc hev
  refine ⟨h.1, fun t2 ev2 ok2 ht2 => ?_⟩
  exact handleEvent_drop _ t2 ev2 ok2 (by rw [h.1]; exact ht2)

theorem debounce_drops_within_window_witness :
    demoState.cooldownUntil ≤ 0 ∧
    handleEvent (handleEvent demoState 0 .textScrollDown true).1 50 .textScrollDown true =
      ((handleEvent demoState 0 .textScrollDown true).1, []) :=
  ⟨by decide,
   (debounce_drops_within_window demoState smallNote 0 .textScrollDown true rfl rfl
     (by decide) (Or.inr rfl)).2 50 .textScrollDown true (by decide)⟩

/-- C10: while the scroll cooldown is active, the event handler drops every
event kind — including the system double-click — with no state change and no
bridge call, so no device shutdown is triggered inside the window. -/
theorem cooldown_drops_all_events (st : G2State) (now : Nat) (ev : G2Event)
    (ok : Bool) (h : now < st.cooldownUntil) :
    handleEvent st now ev ok = (st, []) :=
  handleEvent_drop st now ev ok h

/-- `demoState` 50 ms after an accepted scroll: the cooldown is armed. -/
def cooldownState : G2State := { demoState with cooldownUntil := 300 }

theorem cooldown_drops_all_events_witness :
    50 < cooldownState.cooldownUntil ∧
    handleEvent cooldownState 50 .sysDoubleClick true = (cooldownState, []) :=
  ⟨by decide, cooldown_drops_all_events cooldownState 50 .sysDoubleClick true (by decide)⟩

-- ---------------------------------------------------------------------------
-- C6: scrolling while the list container is displayed
-- ---------------------------------------------------------------------------

theorem setCooldownAt_pages (st : G2State) (now : Nat) :
    (setCooldownAt st now).pages = st.pages := rfl

theorem setCooldownAt_pageIndex (st : G2State) (now : Nat) :
    (setCooldownAt st now).pageIndex = st.pageIndex := rfl

/-- A checklist note: title `"L"`, items Milk (unchecked) and Eggs (checked). -/
def listNote : Note :=
  { title := some ['L'],
    body := some { text := none,
                   list := some { listItems := [
                     { text := some { text := ['M', 'i', 'l', 'k'] }, checked := false },
                     { text := some { text := ['E', 'g', 'g', 's'] }, checked := true }] } } }

/-- The session right after `renderNoteAsList` put `listNote`'s list container
on screen: the list switch happens at page 0 and changes no session fields. -/
def listModeState : G2State :=
  { bridgeConnected := true, initialized := true, currentNote := some listNote,
    pages := detailPages listNote, pageIndex := 0, cooldownUntil := 0 }

/-- C6 counterexample: with the list container displayed, a scroll-down event
is not a no-op (it issues a render), and a scroll-up event re-renders the
list container rather than returning the display to Detail mode. -/
theorem listMode_scroll_counterexample :
    (handleEvent listModeState 1000 .textScrollDown true).2 ≠ [] ∧
    (handleEvent listModeState 1000 .textScrollUp true).2.filterMap Action.kind =
      [.list (displayItems listNote)] := by
  constructor
  · decide
  · decide

/-- C6 (amended): the event router has no List-mode case — it always runs the
Detail-mode logic on the session state.  With the list container displayed
(page 0 of a checklist note), a text scroll-up event re-renders the list
container (pages and page index unchanged), and a text scroll-down event
issues a Detail render: the next page when several exist, else page 0. -/
theorem listMode_scroll (st : G2State) (note : Note) (now : Nat) (ok : Bool)
    (hb : st.bridgeConnected = true) (hn : st.currentNote = some note)
    (hl : (note.body.bind NoteBody.list).isSome = true)
    (hp : st.pages = detailPages note) (hi : st.pageIndex = 0)
    (hc : st.cooldownUntil ≤ now) :
    ((handleEvent st now .textScrollUp ok).2.filterMap Action.kind =
        [.list (displayItems note)] ∧
      (handleEvent st now .textScrollUp ok).1.pages = st.pages ∧
      (handleEvent st now .textScrollUp ok).1.pageIndex = st.pageIndex) ∧
    ((handleEvent st now .textScrollDown ok).2.filterMap Action.kind =
      if 1 < (detailPages note).length
      then [.detail 1 (pageContent note 1)]
      else [.detail 0 (pageContent note 0)]) := by
  constructor
  · unfold handleEvent
    rw [if_pos hb, if_neg (show ¬ now < st.cooldownUntil by omega)]
    simp only [hn]
    rw [if_neg (by
      intro hcond
      have h2 : 0 < st.pageIndex := hcond.2
      omega)]
    rw [if_pos hl]
    have hk : (renderNoteAsListStep (setCooldownAt st now) note ok).2.kind =
        some (.list (displayItems note)) := by
      unfold renderNoteAsListStep
      rw [if_pos hl]
      exact renderPageStep_kind _ _ _
    have hf : (renderNoteAsListStep (setCooldownAt st now) note ok).1.pages = st.pages ∧
        (renderNoteAsListStep (setCooldownAt st now) note ok).1.pageIndex =
          st.pageIndex := by
      unfold renderNoteAsListStep
      rw [if_pos hl]
      have h := renderPageStep_fields (setCooldownAt st now) (.list (displayItems note)) ok
      exact ⟨h.1, h.2.1⟩
    exact ⟨filterMap_kind_single _ _ hk, hf.1, hf.2⟩
  · unfold handleEvent
    rw [if_pos hb, if_neg (show ¬ now < st.cooldownUntil by omega)]
    simp only [hn]
    by_cases hlen : 1 < (detailPages note).length
    · rw [if_pos (show 1 < (setCooldownAt st now).pages.length ∧
          (setCooldownAt st now).pageIndex < (setCooldownAt st now).pages.length - 1 from
        ⟨by rw [setCooldownAt_pages, hp]; exact hlen,
         by rw [setCooldownAt_pageIndex, setCooldownAt_pages, hp, hi]; omega⟩)]
      rw [if_pos hlen]
      have harg : (((setCooldownAt st now).pageIndex : Int) + 1) = (1 : Int) := by
        rw [setCooldownAt_pageIndex, hi]
        norm_num
      rw [harg]
      refine filterMap_kind_single _ _ ?_
      rw [renderNoteDetailStep_kind]
      have h1 := clampedIndex_coe 1 (detailPages note).length hlen
      simp only [Nat.cast_one] at h1
      rw [h1]
    · rw [if_neg (by
        intro hcond
        have h1 : 1 < st.pages.length := hcond.1
        rw [hp] at h1
        exact hlen h1)]
      rw [if_neg hlen]
      refine filterMap_kind_single _ _ ?_
      rw [renderNoteDetailStep_kind]
      have h0 := clampedIndex_coe 0 (detailPages note).length (detailPages_length_pos note)
      simp only [Nat.cast_zero] at h0
      rw [h0]

theorem listMode_scroll_witness :
    (listNote.body.bind NoteBody.list).isSome = true ∧
    (handleEvent listModeState 0 .textScrollUp true).2.filterMap Action.kind =
      [.list (displayItems listNote)] :=
  ⟨rfl,
   ((listMode_scroll listModeState listNote 0 true rfl rfl rfl rfl rfl
     (Nat.le_refl 0)).1).1⟩

-- ---------------------------------------------------------------------------
-- C9: session state after a failed render
-- ---------------------------------------------------------------------------

/-- C9 (amended): when a projection attempt fails with a bridge error after a
connection was established (the rebuild call rejecting), the session state is
not rolled back to its pre-attempt values — it already holds the attempted
render's values, written before the bridge call: `currentNote` is the attempted
note, `pages` its freshly computed page set, `pageIndex` 0; a retry therefore
re-issues the attempted render, not the previous one. -/
theorem sendNote_failure_state (st : G2State) (note : Note)
    (hb : st.bridgeConnected = true) :
    (sendNoteToG2Step st note false).1.currentNote = some note ∧
    (sendNoteToG2Step st note false).1.pages = detailPages note ∧
    (sendNoteToG2Step st note false).1.pageIndex = 0 ∧
    (st.initialized = true → (sendNoteToG2Step st note false).2.2 = false) := by
  unfold sendNoteToG2Step
  rw [if_pos hb]
  refine ⟨?_, ?_, ?_, ?_⟩
  · show (renderNoteDetailStep { st with currentNote := some note, pageIndex := 0 }
        note 0 false).1.currentNote = some note
    rw [renderNoteDetailStep_currentNote]
  · exact (renderNoteDetailStep_state
      { st with currentNote := some note, pageIndex := 0 } note 0 false).1
  · show (renderNoteDetailStep { st with currentNote := some note, pageIndex := 0 }
        note 0 false).1.pageIndex = 0
    rw [(renderNoteDetailStep_state _ note 0 false).2.1]
    have h0 := clampedIndex_coe 0 (detailPages note).length (detailPages_length_pos note)
    simpa using h0
  · intro hinit
    show (!(st.initialized && !false)) = false
    rw [hinit]
    rfl

/-- A note distinct from `noteB`, already projected before the failure. -/
def noteA : Note := { title := some ['A'], body := none }

/-- The note whose projection attempt fails. -/
def noteB : Note := { title := some ['B'], body := none }

/-- A session with `noteA` successfully on screen (`initialized`), about to
attempt `noteB`. -/
def preState : G2State :=
  { bridgeConnected := true, initialized := true, currentNote := some noteA,
    pages := detailPages noteA, pageIndex := 0, cooldownUntil := 0 }

/-- C9 counterexample: projecting `noteB` over an initialized connection with
the rebuild call failing reports failure, yet `currentNote` is not its
pre-attempt value `some noteA` — the claim that the session fields are left
unchanged (equal to their pre-attempt values) is false. -/
theorem sendNote_failure_counterexample :
    (sendNoteToG2Step preState noteB false).2.2 = false ∧
    (sendNoteToG2Step preState noteB false).1.currentNote ≠ preState.currentNote := by
  constructor
  · decide
  · decide

theorem sendNote_failure_state_witness :
    preState.bridgeConnected = true ∧
    (sendNoteToG2Step preState noteB false).1.currentNote = some noteB :=
  ⟨rfl, (sendNote_failure_state preState noteB rfl).1⟩

end EvenG2
